import Mathlib

/-!
Verification development for the gRPC conference server
(`conference-server/main.go`).  The Go server is shallowly embedded:

* protobuf messages become Lean structures with the same fields;
* `sync.Map` values (`Room.clients`, `Room.users`, `server.activeTransfers`)
  become association lists keyed by strings;
* a Go buffered channel of capacity 100 becomes a `List` of queued
  envelopes together with the capacity bound `chanCap`;
* a non-blocking `select { case ch <- m: default: }` send becomes `trySend`
  (returns the unchanged queue and `false` when the buffer is full), while
  a plain blocking `ch <- m` becomes `blockingSend` (returns `none` when
  the buffer is full, i.e. the sending goroutine blocks);
* the chunk-relay goroutines (`proxyP2PChunks`, `proxyBroadcastChunks`)
  become functions from the sender's emitted chunk list (the successive
  results of `sender.Recv()`) and per-step send outcomes to the list of
  chunks actually delivered.

In Go the `users` map stores the same `*Client` pointer as the `clients`
map; the pure rendering keeps `clients` as the owning address-keyed view
and lets `users` map a username to the client's address.
-/

namespace Conf

/-- Proto message `ChatMessage` (fields used by the server). -/
structure ChatMessage where
  sender : String
  content : String
  roomId : String
  timestamp : Int
deriving DecidableEq

/-- Proto message `Command` (control payload). -/
structure Command where
  type : String
  value : String
deriving DecidableEq

/-- Proto message `PrivateMessage`. -/
structure PrivateMessage where
  recipientId : String
  content : String
deriving DecidableEq

/-- Proto message `FileAnnouncement`. -/
structure FileAnnouncement where
  filename : String
  fileSize : Int
  transferId : String
deriving DecidableEq

/-- The payload oneof of `ConferenceData`: exactly one variant is present. -/
inductive Payload where
  | textMessage (m : ChatMessage)
  | audioChunk (data : List Nat)
  | privateMessage (pm : PrivateMessage)
  | fileAnnouncement (fa : FileAnnouncement)
  | command (c : Command)
deriving DecidableEq

/-- Proto message `ConferenceData`: the envelope on the main stream. -/
structure ConferenceData where
  sender : String
  roomId : String
  payload : Payload
deriving DecidableEq

/-- Capacity of a client's outbound channel: `make(chan *pb.ConferenceData, 100)`. -/
def chanCap : Nat := 100

/-- `Client` struct: id (username), transport address, and the contents of
its buffered outbound channel `ch`. -/
structure Client where
  id : String
  addr : String
  ch : List ConferenceData
deriving DecidableEq

/-- `Room` struct: `clients` is the address-keyed view, `users` the
username-keyed view.  In Go both store `*Client`; here `users` maps the
username to the client's address. -/
structure Room where
  id : String
  clients : List (String × Client)
  users : List (String × String)
deriving DecidableEq

/-- `sync.Map.Store`: insert or overwrite the entry for key `k`. -/
def storeAssoc {α : Type} (m : List (String × α)) (k : String) (v : α) :
    List (String × α) :=
  (k, v) :: m.filter (fun p => p.1 != k)

/-- `Room.AddClient`: rejects when the exact username key is already present
in the `users` view, otherwise stores the client under its address and its
username (the Go code compares usernames by exact map-key equality). -/
def Room.addClient (r : Room) (c : Client) : Except String Room :=
  match r.users.lookup c.id with
  | some _ => .error ("username \x27" ++ c.id ++ "\x27 is already taken")
  | none => .ok { r with
      clients := storeAssoc r.clients c.addr c,
      users := storeAssoc r.users c.id c.addr }

/-- gRPC status codes used by the server. -/
inductive GrpcCode where
  | ok
  | invalidArgument
  | alreadyExists
  | unknown
deriving DecidableEq

/-- Admission step of `JoinConference`: an `AddClient` failure is returned
to the caller as `codes.AlreadyExists` with the error text. -/
def joinAdmit (r : Room) (c : Client) : Except (GrpcCode × String) Room :=
  match r.addClient c with
  | .error e => .error (.alreadyExists, e)
  | .ok r2 => .ok r2

/-- Non-blocking channel send, `select` with a `default` arm: appends when
the buffer has room, otherwise leaves the client unchanged and reports the
drop (`false`). -/
def trySend (c : Client) (msg : ConferenceData) : Client × Bool :=
  if c.ch.length < chanCap then ({ c with ch := c.ch ++ [msg] }, true)
  else (c, false)

/-- Plain blocking channel send `ch <- msg`: `none` when the buffer is full,
meaning the sending goroutine blocks and the operation cannot complete now. -/
def blockingSend (c : Client) (msg : ConferenceData) : Option Client :=
  if c.ch.length < chanCap then some { c with ch := c.ch ++ [msg] } else none

/-- Body of `Room.Broadcast`: every entry whose address differs from the
sender's address gets a non-blocking enqueue of `msg`. -/
def broadcastList : List (String × Client) → ConferenceData → String →
    List (String × Client)
  | [], _, _ => []
  | (a, c) :: rest, msg, sa =>
      (a, if a = sa then c else (trySend c msg).1) :: broadcastList rest msg sa

/-- `Room.Broadcast(msg, senderAddr)`. -/
def Room.broadcast (r : Room) (msg : ConferenceData) (senderAddr : String) :
    Room :=
  { r with clients := broadcastList r.clients msg senderAddr }

/-- Replace the client stored under `addr` (pointer mutation in Go). -/
def updateList : List (String × Client) → String → Client →
    List (String × Client)
  | [], _, _ => []
  | (a, c0) :: rest, addr, c =>
      (a, if a = addr then c else c0) :: updateList rest addr c

/-- Room after one stored client has been replaced. -/
def updateClient (r : Room) (addr : String) (c : Client) : Room :=
  { r with clients := updateList r.clients addr c }

/-- The envelope `handlePrivateMessage` forwards to the recipient: a
`ChatMessage` whose content is `"(private from <sender>) <content>"`. -/
def privateForwardMsg (roomId senderId : String) (pm : PrivateMessage)
    (now : Int) : ConferenceData :=
  { sender := senderId, roomId := roomId,
    payload := .textMessage {
      sender := senderId,
      content := "(private from " ++ senderId ++ ") " ++ pm.content,
      roomId := roomId, timestamp := now } }

/-- The error envelope sent back to the sender when the recipient username
is absent from the room. -/
def userNotFoundMsg (recipientId : String) : ConferenceData :=
  { sender := "Server", roomId := "",
    payload := .command {
      type := "ERROR",
      value := "User \x27" ++ recipientId ++ "\x27 not found in this room." } }

/-- `server.handlePrivateMessage`: resolve the recipient in the `users`
view; on hit, blocking-send the rewritten envelope to the recipient; on
miss, blocking-send the Server error envelope back to the sender.  `none`
means the blocking send cannot complete because the target buffer is full.
The inner `clients` lookups model the dereference of the stored `*Client`
pointer and always succeed on rooms where `users` aliases `clients`. -/
def handlePrivateMessage (r : Room) (senderAddr senderId : String)
    (pm : PrivateMessage) (now : Int) : Option Room :=
  match r.users.lookup pm.recipientId with
  | some raddr =>
      match r.clients.lookup raddr with
      | some recipient =>
          (blockingSend recipient (privateForwardMsg r.id senderId pm now)).map
            (fun c => updateClient r raddr c)
      | none => some r
  | none =>
      match r.clients.lookup senderAddr with
      | some sender =>
          (blockingSend sender (userNotFoundMsg pm.recipientId)).map
            (fun c => updateClient r senderAddr c)
      | none => some r

/-- A point-to-point transfer: the two attached `TransferFile` streams,
identified by numeric stream ids. -/
structure P2PTransfer where
  sender : Option Nat
  receiver : Option Nat
deriving DecidableEq

/-- A broadcast transfer: the sender stream and the address-keyed set of
attached receiver streams. -/
structure BroadcastTransfer where
  sender : Option Nat
  receivers : List (String × Nat)
deriving DecidableEq

/-- Entry of `server.activeTransfers`. -/
inductive Transfer where
  | p2p (t : P2PTransfer)
  | broadcast (t : BroadcastTransfer)
deriving DecidableEq

/-- `server.activeTransfers`: transfer id to active transfer. -/
abbrev Registry := List (String × Transfer)

/-- The payload switch in `JoinConference`'s receive loop: private messages
go to `handlePrivateMessage`; a file announcement stores a fresh broadcast
transfer under its transfer id and is then broadcast; everything else
(text, audio, control commands) falls to the `default` branch and is
broadcast to the rest of the room. -/
def dispatchStep (r : Room) (reg : Registry) (senderAddr senderId : String)
    (msg : ConferenceData) (now : Int) : Option (Room × Registry) :=
  match msg.payload with
  | .privateMessage pm =>
      (handlePrivateMessage r senderAddr senderId pm now).map
        (fun r2 => (r2, reg))
  | .fileAnnouncement fa =>
      some (r.broadcast msg senderAddr,
        storeAssoc reg fa.transferId (.broadcast ⟨none, []⟩))
  | _ => some (r.broadcast msg senderAddr, reg)

/-- Proto message `FileTransferRequest`. -/
structure FileTransferRequest where
  transferId : String
  sender : String
  recipient : String
  roomId : String
  filename : String
  fileSize : Int
  timestamp : Int
deriving DecidableEq

/-- Proto message `FileTransferResponse` (fields used by the server). -/
structure FileTransferResponse where
  transferId : String
  accepted : Bool
deriving DecidableEq

/-- The notification envelope `RequestFileTransfer` builds: reserved sender
`Sistema-FileTransfer`, and a `ChatMessage` whose only populated field is
the sentinel content
`FILE_REQUEST:<transfer id>:<source>:<filename>:<size>:<timestamp>`. -/
def fileRequestNotification (req : FileTransferRequest) : ConferenceData :=
  { sender := "Sistema-FileTransfer", roomId := req.roomId,
    payload := .textMessage {
      sender := "", roomId := "", timestamp := 0,
      content := "FILE_REQUEST:" ++ req.transferId ++ ":" ++ req.sender ++
        ":" ++ req.filename ++ ":" ++ toString req.fileSize ++ ":" ++
        toString req.timestamp } }

/-- Delivery of the notification: `RequestFileTransfer` calls
`Broadcast(notificationMsg, "")` on the requested room, so the excluded
sender address is the empty string. -/
def requestNotifyRoom (r : Room) (req : FileTransferRequest) : Room :=
  r.broadcast (fileRequestNotification req) ""

/-- Outcome of the rendezvous `select` in `RequestFileTransfer`: either a
`RespondFileTransfer` arrived on the response channel, or the
`time.After(60 * time.Second)` arm fired first. -/
inductive Arbitration where
  | received (resp : FileTransferResponse)
  | timeout60s
deriving DecidableEq

/-- Result of `RequestFileTransfer` after the rendezvous: an accepted
response stores a fresh point-to-point transfer; the timeout arm returns a
response with `accepted = false` and leaves the registry alone. -/
def requestOutcome (req : FileTransferRequest) (reg : Registry)
    (a : Arbitration) : FileTransferResponse × Registry :=
  match a with
  | .received resp =>
      if resp.accepted then (resp, storeAssoc reg req.transferId (.p2p ⟨none, none⟩))
      else (resp, reg)
  | .timeout60s => ({ transferId := req.transferId, accepted := false }, reg)

/-- Kinds of blocking waits appearing in the server's transfer code: a
stream context completing, a channel receive, or a `time.After` timer of
the given number of seconds. -/
inductive WaitKind where
  | contextDone
  | channelRecv
  | timerSeconds (n : Nat)
deriving DecidableEq

/-- Whether a wait is bounded by a timer. -/
def WaitKind.isTimerBounded : WaitKind → Bool
  | .timerSeconds _ => true
  | _ => false

/-- The two arms of the `select` in `RequestFileTransfer`: the response
channel and a 60-second timer. -/
def requestFileTransferWaits : List WaitKind :=
  [.channelRecv, .timerSeconds 60]

/-- The final wait of `handleP2PTransfer` and `handleBroadcastTransfer`
after recording an attachment: both block on `<-stream.Context().Done()`
and on nothing else — the functions contain no timer. -/
def transferAttachFinalWait : WaitKind := .contextDone

/-- gRPC request metadata: a multimap from keys to value lists. -/
abbrev Metadata := List (String × String)

/-- `metadata.MD.Get(key)`: the list of values stored under `key`. -/
def mdGet (md : Metadata) (key : String) : List String :=
  (md.filter (fun p => p.1 == key)).map (fun p => p.2)

/-- How a `TransferFile` call can fail before any chunk flows: a Go
runtime panic (the code indexes `md.Get(k)[0]` without checking), or an
ordinary `error` return (which gRPC surfaces as code `Unknown`). -/
inductive TFFailure where
  | goPanic (msg : String)
  | grpcError (msg : String)
deriving DecidableEq

/-- The head of `server.TransferFile`: read `transfer-id` and `role` from
the metadata by unchecked indexing — an absent key panics with an
index-out-of-range — then look the transfer id up in `activeTransfers`. -/
def transferFileLookup (md : Metadata) (reg : Registry) :
    Except TFFailure (String × String × Transfer) :=
  match mdGet md "transfer-id" with
  | [] => .error (.goPanic "index out of range")
  | tid :: _ =>
      match mdGet md "role" with
      | [] => .error (.goPanic "index out of range")
      | role :: _ =>
          match reg.lookup tid with
          | none => .error (.grpcError "transfer not initiated")
          | some t => .ok (tid, role, t)

/-- The attachment step of `handleP2PTransfer`: role `sender` records the
sender stream, role `receiver` the receiver stream, and any other role
value matches neither branch and changes nothing (the call then simply
blocks until its context is done and returns nil). -/
def p2pAttach (t : P2PTransfer) (role : String) (stream : Nat) : P2PTransfer :=
  if role == "sender" then { t with sender := some stream }
  else if role == "receiver" then { t with receiver := some stream }
  else t

/-- Sender attachment in `handleBroadcastTransfer`: fails when a sender is
already recorded, otherwise records the stream. -/
def broadcastSenderAttach (tid : String) (t : BroadcastTransfer)
    (stream : Nat) : Except String BroadcastTransfer :=
  match t.sender with
  | some _ => .error ("broadcast sender for \x27" ++ tid ++ "\x27 already exists")
  | none => .ok { t with sender := some stream }

/-- Registry-level effect of a `TransferFile` sender attachment on a
broadcast transfer: on success the stored transfer gains the sender, on
failure the registry is returned unchanged together with the error. -/
def registrySenderAttach (reg : Registry) (tid : String) (stream : Nat) :
    Registry × Option String :=
  match reg.lookup tid with
  | some (.broadcast t) =>
      match broadcastSenderAttach tid t stream with
      | .ok t2 => (storeAssoc reg tid (.broadcast t2), none)
      | .error e => (reg, some e)
  | _ => (reg, some "transfer not initiated")

/-- Proto message `FileChunk`. -/
structure FileChunk where
  transferId : String
  data : List Nat
  chunkNumber : Nat
  isLast : Bool
deriving DecidableEq

/-- Chunks a relay loop delivers to one receiver: the loop walks the
incoming chunks in order and stops at the first failing `Send`; `ok i`
says whether the `Send` of the chunk at overall position `i` succeeds.
A chunk whose send fails is not delivered. -/
def sendLoop : List FileChunk → (Nat → Bool) → Nat → List FileChunk
  | [], _, _ => []
  | c :: rest, ok, i =>
      if ok i then c :: sendLoop rest ok (i + 1) else []

/-- `proxyP2PChunks`: receive from the sender and forward to the single
receiver until either side errors.  `emitted` is the sequence of chunks
the sender's stream yields before ending. -/
def proxyP2PDelivered (emitted : List FileChunk) (ok : Nat → Bool) :
    List FileChunk :=
  sendLoop emitted ok 0

/-- The chunks `proxyBroadcastChunks` relays: it forwards chunks in order
and returns right after forwarding the first chunk with `IsLast` set. -/
def relayedChunks : List FileChunk → List FileChunk
  | [] => []
  | c :: rest => if c.isLast then [c] else c :: relayedChunks rest

/-- Chunks one broadcast receiver gets: a receiver attached from relay
position `attachAt` onwards receives the relayed chunks from that position
until its first failing `Send`, which evicts it from the receiver set. -/
def broadcastReceiverDelivered (emitted : List FileChunk) (attachAt : Nat)
    (ok : Nat → Bool) : List FileChunk :=
  sendLoop ((relayedChunks emitted).drop attachAt) ok attachAt

/-- Registry effect of `proxyP2PChunks`: the function body never reads or
writes `activeTransfers`, so the registry is unchanged when it returns. -/
def proxyP2PRegistryAfter (reg : Registry) (_tid : String) : Registry := reg

/-- Registry effect of `proxyBroadcastChunks`: the deferred
`activeTransfers.Delete(tID)` removes the entry when the proxy returns. -/
def proxyBroadcastRegistryAfter (reg : Registry) (tid : String) : Registry :=
  reg.filter (fun p => p.1 != tid)

/-! Concrete instances used by counterexamples and witnesses. -/

/-- A member named in lower case. -/
def clientAliceLower : Client := { id := "alice", addr := "a1", ch := [] }

/-- A joiner whose username differs from `alice` only in letter case. -/
def clientAliceUpper : Client := { id := "Alice", addr := "a2", ch := [] }

/-- A joiner reusing the exact username `alice`. -/
def clientAliceDup : Client := { id := "alice", addr := "a9", ch := [] }

/-- A fresh joiner. -/
def clientBob : Client := { id := "bob", addr := "b1", ch := [] }

/-- A third member. -/
def clientCarol : Client := { id := "carol", addr := "c1", ch := [] }

/-- Room `r1` holding only `alice`. -/
def roomR1 : Room :=
  { id := "r1", clients := [("a1", clientAliceLower)],
    users := [("alice", "a1")] }

/-- Room `r1` holding `alice` and `bob`. -/
def roomAB : Room :=
  { id := "r1",
    clients := [("a1", clientAliceLower), ("b1", clientBob)],
    users := [("alice", "a1"), ("bob", "b1")] }

/-- Room `r1` holding `alice`, `bob` and `carol`. -/
def roomABC : Room :=
  { id := "r1",
    clients := [("a1", clientAliceLower), ("b1", clientBob), ("c1", clientCarol)],
    users := [("alice", "a1"), ("bob", "b1"), ("carol", "c1")] }

/-- Filler envelope used to saturate an outbound queue. -/
def fillerMsg : ConferenceData :=
  { sender := "x", roomId := "r1",
    payload := .command { type := "T", value := "t" } }

/-- `bob` with a full outbound queue (100 buffered envelopes). -/
def clientBobFull : Client :=
  { id := "bob", addr := "b1", ch := List.replicate chanCap fillerMsg }

/-- Room `r1` where `bob`'s outbound queue is full. -/
def roomABCfull : Room :=
  { id := "r1",
    clients := [("a1", clientAliceLower), ("b1", clientBobFull), ("c1", clientCarol)],
    users := [("alice", "a1"), ("bob", "b1"), ("carol", "c1")] }

/-- A control-command envelope sent by `alice` from inside the room. -/
def cmdMsg : ConferenceData :=
  { sender := "alice", roomId := "r1",
    payload := .command { type := "MUTE", value := "bob" } }

/-- A plain text envelope sent by `alice`. -/
def textMsgHi : ConferenceData :=
  { sender := "alice", roomId := "r1",
    payload := .textMessage {
      sender := "alice", content := "hi", roomId := "r1", timestamp := 7 } }

/-- A non-terminal broadcast chunk. -/
def chunkA : FileChunk :=
  { transferId := "t3", data := [1, 2], chunkNumber := 0, isLast := false }

/-- The terminal chunk of the same broadcast transfer. -/
def chunkB : FileChunk :=
  { transferId := "t3", data := [], chunkNumber := 1, isLast := true }

/-- The terminal chunk of point-to-point transfer `t2`. -/
def chunkT2 : FileChunk :=
  { transferId := "t2", data := [], chunkNumber := 0, isLast := true }

/-- A registry holding the running point-to-point transfer `t2` with both
streams attached. -/
def regT2 : Registry :=
  [("t2", Transfer.p2p { sender := some 1, receiver := some 2 })]

/-- A registry holding broadcast transfer `t3` with an attached sender and
one attached receiver. -/
def regT3 : Registry :=
  [("t3", Transfer.broadcast { sender := some 1, receivers := [("b1", 2)] })]

/-- A point-to-point file request from `alice` to `bob` in room `r1`. -/
def reqT1 : FileTransferRequest :=
  { transferId := "t1", sender := "alice", recipient := "bob",
    roomId := "r1", filename := "a.bin", fileSize := 10, timestamp := 5 }

/-- Metadata of a well-formed `TransferFile` call for transfer `t3`. -/
def mdT3 : Metadata := [("transfer-id", "t3"), ("role", "receiver")]

/-! Helper lemmas about the association-list operations. -/

/-- Looking a client up after a broadcast: entries other than the sender's
address have received a non-blocking enqueue attempt. -/
theorem broadcastList_lookup (cs : List (String × Client))
    (msg : ConferenceData) (sa addr : String) :
    (broadcastList cs msg sa).lookup addr =
      (cs.lookup addr).map (fun c => if addr = sa then c else (trySend c msg).1) := by
  induction cs with
  | nil => rfl
  | cons p rest ih =>
    obtain ⟨a, c⟩ := p
    by_cases h : addr = a
    · subst h
      simp [broadcastList, List.lookup]
    · have hb : (addr == a) = false := beq_false_of_ne h
      simp only [broadcastList, List.lookup, hb, ih]

/-- Looking a client up after an update of one stored client. -/
theorem updateList_lookup (cs : List (String × Client)) (addr : String)
    (c : Client) (a : String) :
    (updateList cs addr c).lookup a =
      (cs.lookup a).map (fun c0 => if a = addr then c else c0) := by
  induction cs with
  | nil => rfl
  | cons p rest ih =>
    obtain ⟨k, c0⟩ := p
    simp only [updateList]
    by_cases h : a = k
    · subst h
      by_cases hk : a = addr <;> simp [List.lookup, hk]
    · have hb : (a == k) = false := beq_false_of_ne h
      by_cases hk : k = addr
      · subst hk
        simp [List.lookup, hb, ih]
      · simp [List.lookup, hb, hk, ih]

/-- Filtering a key out of an association list makes its lookup miss. -/
theorem lookup_filter_self (reg : Registry) (tid : String) :
    (reg.filter (fun p => p.1 != tid)).lookup tid = none := by
  induction reg with
  | nil => rfl
  | cons p rest ih =>
    obtain ⟨k, v⟩ := p
    by_cases h : k = tid
    · subst h
      simp only [List.filter, bne_self_eq_false, ih]
    · have hb : (k != tid) = true := by simpa [bne_iff_ne] using h
      have hb2 : (tid == k) = false := beq_false_of_ne (fun he => h he.symm)
      simp only [List.filter, hb, List.lookup, hb2, ih]

/-- `sync.Map.Store` keeps the username keys duplicate-free. -/
theorem storeAssoc_keys_nodup {α : Type} (m : List (String × α)) (k : String)
    (v : α) (h : (m.map Prod.fst).Nodup) :
    ((storeAssoc m k v).map Prod.fst).Nodup := by
  unfold storeAssoc
  simp only [List.map_cons]
  refine List.nodup_cons.mpr ⟨?_, ?_⟩
  · intro hmem
    obtain ⟨p, hp, hpk⟩ := List.mem_map.mp hmem
    have hf := List.of_mem_filter hp
    exact absurd hpk (by simpa [bne_iff_ne] using hf)
  · exact List.Nodup.sublist (List.Sublist.map Prod.fst (List.filter_sublist m)) h

/-! Helper lemmas about the chunk relay loops. -/

/-- The chunks a relay loop sends form an initial segment of its input. -/
theorem sendLoop_append_eq : ∀ (l : List FileChunk) (ok : Nat → Bool) (i : Nat),
    ∃ t, sendLoop l ok i ++ t = l
  | [], _, _ => ⟨[], rfl⟩
  | c :: rest, ok, i => by
    by_cases h : ok i
    · obtain ⟨t, ht⟩ := sendLoop_append_eq rest ok (i + 1)
      exact ⟨t, by simp [sendLoop, h, ht]⟩
    · exact ⟨c :: rest, by simp [sendLoop, h]⟩

/-- The broadcast relay forwards an initial segment of the sender's chunks. -/
theorem relayedChunks_append_eq : ∀ l : List FileChunk,
    ∃ t, relayedChunks l ++ t = l
  | [] => ⟨[], rfl⟩
  | c :: rest => by
    by_cases h : c.isLast
    · exact ⟨rest, by simp [relayedChunks, h]⟩
    · obtain ⟨t, ht⟩ := relayedChunks_append_eq rest
      exact ⟨t, by simp [relayedChunks, h, ht]⟩

/-- All relayed chunks except the final one have `IsLast` unset. -/
theorem relayedChunks_dropLast : ∀ l : List FileChunk,
    ∀ c ∈ (relayedChunks l).dropLast, c.isLast = false := by
  intro l
  induction l with
  | nil => intro c hc; simp [relayedChunks] at hc
  | cons c0 rest ih =>
    intro c hc
    by_cases h : c0.isLast
    · simp [relayedChunks, h] at hc
    · rw [relayedChunks] at hc
      simp only [if_neg h] at hc
      cases hrel : relayedChunks rest with
      | nil => rw [hrel] at hc; simp at hc
      | cons r0 rs =>
        rw [hrel, List.dropLast_cons₂] at hc
        rcases List.mem_cons.mp hc with hc0 | hcs
        · subst hc0; simpa using h
        · exact ih c (by rw [hrel]; exact hcs)

/-- Removing the head preserves the no-terminal-before-the-end property. -/
theorem dropLast_tail_prop (x : FileChunk) (xs : List FileChunk)
    (h : ∀ c ∈ (x :: xs).dropLast, c.isLast = false) :
    ∀ c ∈ xs.dropLast, c.isLast = false := by
  intro c hc
  apply h
  cases xs with
  | nil => simp at hc
  | cons y ys =>
    rw [List.dropLast_cons₂]
    exact List.mem_cons_of_mem x hc

/-- Dropping a prefix preserves the no-terminal-before-the-end property. -/
theorem dropLast_drop_prop : ∀ (a : Nat) (l : List FileChunk),
    (∀ c ∈ l.dropLast, c.isLast = false) →
    ∀ c ∈ (l.drop a).dropLast, c.isLast = false
  | 0, l, h => by simpa using h
  | a + 1, [], _ => by simp
  | a + 1, x :: xs, h => by
    simp only [List.drop_succ_cons]
    exact dropLast_drop_prop a xs (dropLast_tail_prop x xs h)

/-- Dropping the head of a `getLast?` over a nonempty tail. -/
theorem getLast?_cons_of_ne_nil (a : FileChunk) (l : List FileChunk)
    (h : l ≠ []) : (a :: l).getLast? = l.getLast? := by
  cases l with
  | nil => exact absurd rfl h
  | cons b t => exact List.getLast?_cons_cons

/-- If the relay input never sets `IsLast` before its final chunk, then a
delivered chunk with `IsLast` set is the last chunk delivered. -/
theorem sendLoop_isLast_getLast : ∀ (l : List FileChunk) (ok : Nat → Bool) (i : Nat),
    (∀ c ∈ l.dropLast, c.isLast = false) →
    ∀ c ∈ sendLoop l ok i, c.isLast = true →
      (sendLoop l ok i).getLast? = some c := by
  intro l
  induction l with
  | nil => intro ok i _ c hc; simp [sendLoop] at hc
  | cons c0 rest ih =>
    intro ok i h c hc hlast
    by_cases hok : ok i
    · rw [sendLoop, if_pos hok] at hc ⊢
      cases rest with
      | nil =>
        simp only [sendLoop] at hc ⊢
        rcases List.mem_cons.mp hc with hc0 | hcs
        · subst hc0; rfl
        · simp at hcs
      | cons r0 rs =>
        have h0 : c0.isLast = false := h c0 (by rw [List.dropLast_cons₂]; exact List.mem_cons_self c0 _)
        rcases List.mem_cons.mp hc with hc0 | hcs
        · subst hc0; rw [hlast] at h0; exact absurd h0 (by simp)
        · have hrec := ih ok (i + 1) (dropLast_tail_prop c0 (r0 :: rs) h) c hcs hlast
          rw [getLast?_cons_of_ne_nil _ _ (List.ne_nil_of_mem hcs)]
          exact hrec
    · rw [sendLoop, if_neg hok] at hc
      simp at hc

/-! Claim theorems. -/

/-- C1 counterexample: `Alice` differs from the member `alice` only in
letter case, yet `AddClient` admits it — the uniqueness check compares
exact map keys, so case-insensitive duplicates join successfully instead
of failing with `AlreadyExists`. -/
theorem conf_c1_counterexample :
    clientAliceUpper.id ≠ clientAliceLower.id ∧
    clientAliceUpper.id.toList.map Char.toLower =
      clientAliceLower.id.toList.map Char.toLower ∧
    roomR1.addClient clientAliceUpper = Except.ok
      { id := "r1",
        clients := [("a2", clientAliceUpper), ("a1", clientAliceLower)],
        users := [("Alice", "a2"), ("alice", "a1")] } :=
  ⟨by decide, by decide, by rfl⟩

/-- C1 (amended): username uniqueness in a Room is exact (case-sensitive):
`AddClient` fails — surfaced by `JoinConference` as `AlreadyExists` — iff
the exact username key is present in the `users` view, and every
successful admission preserves exact uniqueness of the username view. -/
theorem conf_c1_amended (r : Room) (c : Client)
    (hnodup : (r.users.map Prod.fst).Nodup) :
    ((r.users.lookup c.id).isSome →
      joinAdmit r c = Except.error (GrpcCode.alreadyExists,
        "username \x27" ++ c.id ++ "\x27 is already taken")) ∧
    ((r.users.lookup c.id = none) ↔ ∃ r2, r.addClient c = Except.ok r2) ∧
    (∀ r2, r.addClient c = Except.ok r2 → (r2.users.map Prod.fst).Nodup) := by
  refine ⟨?_, ⟨?_, ?_⟩, ?_⟩
  · intro hsome
    obtain ⟨a, ha⟩ := Option.isSome_iff_exists.mp hsome
    simp [joinAdmit, Room.addClient, ha]
  · intro hnone
    exact ⟨{ r with
        clients := storeAssoc r.clients c.addr c,
        users := storeAssoc r.users c.id c.addr },
      by simp [Room.addClient, hnone]⟩
  · rintro ⟨r2, hr2⟩
    cases hlook : r.users.lookup c.id with
    | none => rfl
    | some a => simp [Room.addClient, hlook] at hr2
  · intro r2 hr2
    cases hlook : r.users.lookup c.id with
    | some a => simp [Room.addClient, hlook] at hr2
    | none =>
      simp only [Room.addClient, hlook] at hr2
      obtain rfl := (Except.ok.injEq _ _).mp hr2.symm
      exact storeAssoc_keys_nodup r.users c.id c.addr hnodup

/-- C1 witness: the amended claim applied to room `r1` holding `alice` and
a joiner reusing the exact name `alice`. -/
theorem conf_c1_witness :
    (roomR1.users.map Prod.fst).Nodup ∧
    (((roomR1.users.lookup clientAliceDup.id).isSome →
        joinAdmit roomR1 clientAliceDup = Except.error (GrpcCode.alreadyExists,
          "username \x27" ++ clientAliceDup.id ++ "\x27 is already taken")) ∧
     ((roomR1.users.lookup clientAliceDup.id = none) ↔
        ∃ r2, roomR1.addClient clientAliceDup = Except.ok r2) ∧
     (∀ r2, roomR1.addClient clientAliceDup = Except.ok r2 →
        (r2.users.map Prod.fst).Nodup)) :=
  ⟨by decide, conf_c1_amended roomR1 clientAliceDup (by decide)⟩

/-- C2 counterexample: a control-command envelope received from a
participant is not ignored — dispatching `cmdMsg` from `alice` lands it in
`bob`'s outbound queue via the `default` broadcast branch. -/
theorem conf_c2_counterexample :
    (dispatchStep roomAB [] "a1" "alice" cmdMsg 0).map
        (fun p => (p.1.clients.lookup "b1").map Client.ch) =
      some (some [cmdMsg]) := by rfl

/-- C2 (amended): the dispatcher routes by payload variant — a private
payload goes through `handlePrivateMessage`; every other variant (text,
audio frame, file announcement, and also a control command received from
a participant) is broadcast, and each member other than the sender whose
queue has room gets the envelope enqueued. -/
theorem conf_c2_amended (r : Room) (reg : Registry) (sa sid : String)
    (msg : ConferenceData) (now : Int) (addr : String) (c : Client)
    (hmem : r.clients.lookup addr = some c) (hne : addr ≠ sa)
    (hroom : c.ch.length < chanCap) :
    (∀ pm, msg.payload = Payload.privateMessage pm →
      dispatchStep r reg sa sid msg now =
        (handlePrivateMessage r sa sid pm now).map (fun r2 => (r2, reg))) ∧
    ((∀ pm, msg.payload ≠ Payload.privateMessage pm) →
      ∃ reg2, dispatchStep r reg sa sid msg now =
          some (r.broadcast msg sa, reg2) ∧
        (r.broadcast msg sa).clients.lookup addr =
          some { c with ch := c.ch ++ [msg] }) := by
  constructor
  · intro pm hpm
    simp [dispatchStep, hpm]
  · intro hnp
    have hlook : (r.broadcast msg sa).clients.lookup addr =
        some { c with ch := c.ch ++ [msg] } := by
      show (broadcastList r.clients msg sa).lookup addr = _
      rw [broadcastList_lookup, hmem]
      simp [hne, trySend, hroom]
    cases hp : msg.payload with
    | privateMessage pm => exact absurd hp (hnp pm)
    | fileAnnouncement fa =>
        exact ⟨storeAssoc reg fa.transferId (Transfer.broadcast ⟨none, []⟩),
          by simp [dispatchStep, hp], hlook⟩
    | textMessage m => exact ⟨reg, by simp [dispatchStep, hp], hlook⟩
    | audioChunk d => exact ⟨reg, by simp [dispatchStep, hp], hlook⟩
    | command cmd => exact ⟨reg, by simp [dispatchStep, hp], hlook⟩

/-- C2 witness: the amended claim applied to `alice` sending a text
envelope in the two-member room, observed at `bob`. -/
theorem conf_c2_witness :
    (roomAB.clients.lookup "b1" = some clientBob ∧ "b1" ≠ "a1" ∧
      clientBob.ch.length < chanCap) ∧
    ((∀ pm, textMsgHi.payload = Payload.privateMessage pm →
        dispatchStep roomAB [] "a1" "alice" textMsgHi 7 =
          (handlePrivateMessage roomAB "a1" "alice" pm 7).map (fun r2 => (r2, []))) ∧
     ((∀ pm, textMsgHi.payload ≠ Payload.privateMessage pm) →
        ∃ reg2, dispatchStep roomAB [] "a1" "alice" textMsgHi 7 =
            some (roomAB.broadcast textMsgHi "a1", reg2) ∧
          (roomAB.broadcast textMsgHi "a1").clients.lookup "b1" =
            some { clientBob with ch := clientBob.ch ++ [textMsgHi] })) :=
  ⟨⟨by rfl, by decide, by decide⟩,
    conf_c2_amended roomAB [] "a1" "alice" textMsgHi 7 "b1" clientBob
      (by rfl) (by decide) (by decide)⟩

/-- C3 counterexample: a broadcast receiver that attaches after the first
chunk was relayed is delivered `[chunkB]`, which is not a prefix of the
sender's emitted sequence `[chunkA, chunkB]`. -/
theorem conf_c3_counterexample :
    broadcastReceiverDelivered [chunkA, chunkB] 1 (fun _ => true) = [chunkB] ∧
    ¬ ∃ t, [chunkB] ++ t = [chunkA, chunkB] := by
  constructor
  · rfl
  · rintro ⟨t, ht⟩
    have hhead : chunkB = chunkA := by
      have := congrArg (fun l => l.head?) ht
      simpa using this
    exact absurd (congrArg FileChunk.isLast hhead) (by decide)

/-- C3 (amended): for a point-to-point transfer the delivered chunks are a
prefix of the sender's emitted sequence, in order; for a broadcast
transfer each receiver is delivered a contiguous in-order segment of the
emitted sequence (a late attacher misses the chunks relayed before it
attached); in both cases, when the emitted sequence sets the terminal
flag only on its final chunk, a delivered terminal chunk is the last
chunk delivered to that receiver. -/
theorem conf_c3_amended (emitted : List FileChunk) (ok : Nat → Bool)
    (attachAt : Nat) (hwf : ∀ c ∈ emitted.dropLast, c.isLast = false) :
    (∃ t, proxyP2PDelivered emitted ok ++ t = emitted) ∧
    (∀ c ∈ proxyP2PDelivered emitted ok, c.isLast = true →
      (proxyP2PDelivered emitted ok).getLast? = some c) ∧
    (∃ s t, s ++ broadcastReceiverDelivered emitted attachAt ok ++ t = emitted) ∧
    (∀ c ∈ broadcastReceiverDelivered emitted attachAt ok, c.isLast = true →
      (broadcastReceiverDelivered emitted attachAt ok).getLast? = some c) := by
  refine ⟨sendLoop_append_eq emitted ok 0,
    sendLoop_isLast_getLast emitted ok 0 hwf, ?_, ?_⟩
  · obtain ⟨t1, ht1⟩ :=
      sendLoop_append_eq ((relayedChunks emitted).drop attachAt) ok attachAt
    obtain ⟨t2, ht2⟩ := relayedChunks_append_eq emitted
    have hd : broadcastReceiverDelivered emitted attachAt ok ++ t1 =
        (relayedChunks emitted).drop attachAt := ht1
    refine ⟨(relayedChunks emitted).take attachAt, t1 ++ t2, ?_⟩
    rw [List.append_assoc ((relayedChunks emitted).take attachAt), ←
      List.append_assoc (broadcastReceiverDelivered emitted attachAt ok), hd,
      ← List.append_assoc, List.take_append_drop]
    exact ht2
  · intro c hc hl
    exact sendLoop_isLast_getLast _ ok attachAt
      (dropLast_drop_prop attachAt _ (relayedChunks_dropLast emitted)) c hc hl

/-- C3 witness: the amended claim applied to the two-chunk sequence with a
receiver attached from the start that never fails. -/
theorem conf_c3_witness :
    (∀ c ∈ ([chunkA, chunkB] : List FileChunk).dropLast, c.isLast = false) ∧
    ((∃ t, proxyP2PDelivered [chunkA, chunkB] (fun _ => true) ++ t = [chunkA, chunkB]) ∧
     (∀ c ∈ proxyP2PDelivered [chunkA, chunkB] (fun _ => true), c.isLast = true →
        (proxyP2PDelivered [chunkA, chunkB] (fun _ => true)).getLast? = some c) ∧
     (∃ s t, s ++ broadcastReceiverDelivered [chunkA, chunkB] 0 (fun _ => true) ++ t =
        [chunkA, chunkB]) ∧
     (∀ c ∈ broadcastReceiverDelivered [chunkA, chunkB] 0 (fun _ => true), c.isLast = true →
        (broadcastReceiverDelivered [chunkA, chunkB] 0 (fun _ => true)).getLast? = some c)) :=
  ⟨by decide, conf_c3_amended [chunkA, chunkB] (fun _ => true) 0 (by decide)⟩

/-- C4 counterexample: the wait for transfer-stream attachment is not
timer-bounded — after recording an attachment, `TransferFile` blocks on
`<-stream.Context().Done()` alone, so the claimed 30-second bound does
not exist in the code. -/
theorem conf_c4_counterexample :
    transferAttachFinalWait.isTimerBounded = false ∧
    transferAttachFinalWait ≠ WaitKind.timerSeconds 30 :=
  ⟨rfl, by decide⟩

/-- C4 (amended): the arbitration rendezvous is 60-second bounded and its
timeout yields a response with `accepted = false`; the attachment phase,
however, has no 30-second bound — an attached `TransferFile` call blocks
solely until its own stream context is done. -/
theorem conf_c4_amended (req : FileTransferRequest) (reg : Registry) :
    (requestOutcome req reg Arbitration.timeout60s).1 =
      { transferId := req.transferId, accepted := false } ∧
    (requestOutcome req reg Arbitration.timeout60s).2 = reg ∧
    WaitKind.timerSeconds 60 ∈ requestFileTransferWaits ∧
    transferAttachFinalWait = WaitKind.contextDone :=
  ⟨rfl, rfl, by simp [requestFileTransferWaits], rfl⟩

/-- C4 witness: the amended claim applied to the concrete request `t1`
with an empty registry. -/
theorem conf_c4_witness :
    (requestOutcome reqT1 [] Arbitration.timeout60s).1 =
      { transferId := reqT1.transferId, accepted := false } ∧
    (requestOutcome reqT1 [] Arbitration.timeout60s).2 = ([] : Registry) ∧
    WaitKind.timerSeconds 60 ∈ requestFileTransferWaits ∧
    transferAttachFinalWait = WaitKind.contextDone :=
  conf_c4_amended reqT1 []

/-- C5 counterexample: the private-message delivery path is a plain
blocking channel send — with `bob`'s outbound queue full, forwarding a
private message from `alice` to `bob` blocks instead of dropping it. -/
theorem conf_c5_counterexample :
    handlePrivateMessage roomABCfull "a1" "alice"
      { recipientId := "bob", content := "hi" } 0 = none := by rfl

/-- C5 (amended): room fan-out enqueues are non-blocking with
per-recipient drop-on-full — a full recipient keeps its queue unchanged
and loses only its own copy while a recipient with room still receives
the envelope — but the private-message path (recipient forward and
sender-error notice alike) uses a plain blocking send, which stalls the
sending dispatcher when the target queue is full instead of dropping. -/
theorem conf_c5_amended (r : Room) (msg : ConferenceData) (sa : String)
    (addrF addrO : String) (cF cO : Client)
    (hF : r.clients.lookup addrF = some cF) (hFfull : ¬ cF.ch.length < chanCap)
    (hFne : addrF ≠ sa)
    (hO : r.clients.lookup addrO = some cO) (hOroom : cO.ch.length < chanCap)
    (hOne : addrO ≠ sa) :
    (r.broadcast msg sa).clients.lookup addrF = some cF ∧
    (r.broadcast msg sa).clients.lookup addrO =
      some { cO with ch := cO.ch ++ [msg] } ∧
    (∀ senderId pm now raddr recipient,
      r.users.lookup pm.recipientId = some raddr →
      r.clients.lookup raddr = some recipient →
      ¬ recipient.ch.length < chanCap →
      handlePrivateMessage r sa senderId pm now = none) := by
  refine ⟨?_, ?_, ?_⟩
  · show (broadcastList r.clients msg sa).lookup addrF = some cF
    rw [broadcastList_lookup, hF]
    simp [hFne, trySend, hFfull]
  · show (broadcastList r.clients msg sa).lookup addrO = some _
    rw [broadcastList_lookup, hO]
    simp [hOne, trySend, hOroom]
  · intro senderId pm now raddr recipient h1 h2 h3
    simp [handlePrivateMessage, h1, h2, blockingSend, h3]

/-- C5 witness: the amended claim applied to the room where `bob`'s queue
is full and `carol`'s has room, with `alice` broadcasting a text. -/
theorem conf_c5_witness :
    (roomABCfull.clients.lookup "b1" = some clientBobFull ∧
      ¬ clientBobFull.ch.length < chanCap ∧ "b1" ≠ "a1" ∧
      roomABCfull.clients.lookup "c1" = some clientCarol ∧
      clientCarol.ch.length < chanCap ∧ "c1" ≠ "a1") ∧
    ((roomABCfull.broadcast textMsgHi "a1").clients.lookup "b1" =
        some clientBobFull ∧
     (roomABCfull.broadcast textMsgHi "a1").clients.lookup "c1" =
        some { clientCarol with ch := clientCarol.ch ++ [textMsgHi] } ∧
     (∀ senderId pm now raddr recipient,
        roomABCfull.users.lookup pm.recipientId = some raddr →
        roomABCfull.clients.lookup raddr = some recipient →
        ¬ recipient.ch.length < chanCap →
        handlePrivateMessage roomABCfull "a1" senderId pm now = none)) :=
  ⟨⟨by rfl, by decide, by decide, by rfl, by decide, by decide⟩,
    conf_c5_amended roomABCfull textMsgHi "a1" "b1" "c1" clientBobFull clientCarol
      (by rfl) (by decide) (by decide) (by rfl) (by decide) (by decide)⟩

/-- C6: a private envelope whose recipient is present is rewritten to
content `(private from <sender>) <content>` and enqueued to that
recipient only, all other members' queues unchanged; when the recipient
is absent, an error envelope with reserved sender `Server` whose reason
names the recipient is enqueued back to the sender only. -/
theorem conf_c6_theorem (r : Room) (sa sid : String) (pm : PrivateMessage)
    (now : Int) :
    (∀ raddr recipient,
      r.users.lookup pm.recipientId = some raddr →
      r.clients.lookup raddr = some recipient →
      recipient.ch.length < chanCap →
      handlePrivateMessage r sa sid pm now =
        some (updateClient r raddr
          { recipient with
            ch := recipient.ch ++ [privateForwardMsg r.id sid pm now] }) ∧
      privateForwardMsg r.id sid pm now = {
        sender := sid, roomId := r.id,
        payload := Payload.textMessage {
          sender := sid,
          content := "(private from " ++ sid ++ ") " ++ pm.content,
          roomId := r.id, timestamp := now } } ∧
      (∀ a, a ≠ raddr →
        (updateClient r raddr
          { recipient with
            ch := recipient.ch ++ [privateForwardMsg r.id sid pm now] }).clients.lookup a =
          r.clients.lookup a)) ∧
    (∀ sender,
      r.users.lookup pm.recipientId = none →
      r.clients.lookup sa = some sender →
      sender.ch.length < chanCap →
      handlePrivateMessage r sa sid pm now =
        some (updateClient r sa
          { sender with ch := sender.ch ++ [userNotFoundMsg pm.recipientId] }) ∧
      userNotFoundMsg pm.recipientId = {
        sender := "Server", roomId := "",
        payload := Payload.command {
          type := "ERROR",
          value := "User \x27" ++ pm.recipientId ++ "\x27 not found in this room." } } ∧
      (∀ a, a ≠ sa →
        (updateClient r sa
          { sender with ch := sender.ch ++ [userNotFoundMsg pm.recipientId] }).clients.lookup a =
          r.clients.lookup a)) := by
  constructor
  · intro raddr recipient h1 h2 h3
    refine ⟨?_, rfl, ?_⟩
    · simp [handlePrivateMessage, h1, h2, blockingSend, h3]
    · intro a ha
      show (updateList r.clients raddr _).lookup a = _
      rw [updateList_lookup]
      cases r.clients.lookup a <;> simp [ha]
  · intro sender h1 h2 h3
    refine ⟨?_, rfl, ?_⟩
    · simp [handlePrivateMessage, h1, h2, blockingSend, h3]
    · intro a ha
      show (updateList r.clients sa _).lookup a = _
      rw [updateList_lookup]
      cases r.clients.lookup a <;> simp [ha]

/-- C6 witness: the hit case applied to `alice` sending `psst` privately
to `bob` in the two-member room. -/
theorem conf_c6_witness :
    handlePrivateMessage roomAB "a1" "alice"
      { recipientId := "bob", content := "psst" } 3 =
      some (updateClient roomAB "b1"
        { clientBob with
          ch := clientBob.ch ++
            [privateForwardMsg roomAB.id "alice"
              { recipientId := "bob", content := "psst" } 3] }) :=
  (((conf_c6_theorem roomAB "a1" "alice"
      { recipientId := "bob", content := "psst" } 3).1
    "b1" clientBob (by rfl) (by rfl) (by decide)).1)

/-- C7 counterexample: the point-to-point proxy relays the terminal chunk
of `t2` yet never removes the registry entry, and a later `TransferFile`
attachment with `t2` still resolves the transfer instead of failing. -/
theorem conf_c7_counterexample :
    proxyP2PDelivered [chunkT2] (fun _ => true) = [chunkT2] ∧
    chunkT2.isLast = true ∧
    proxyP2PRegistryAfter regT2 "t2" = regT2 ∧
    transferFileLookup [("transfer-id", "t2"), ("role", "receiver")]
        (proxyP2PRegistryAfter regT2 "t2") =
      Except.ok ("t2", "receiver",
        Transfer.p2p { sender := some 1, receiver := some 2 }) :=
  ⟨rfl, rfl, rfl, rfl⟩

/-- C7 (amended): when the broadcast proxy observes the terminal chunk it
returns and its deferred delete removes the registry entry, after which
every `TransferFile` attachment with that id fails with "transfer not
initiated"; point-to-point registry entries, by contrast, are never
removed by the chunk proxy. -/
theorem conf_c7_amended (reg : Registry) (tid : String) (md : Metadata)
    (role : String)
    (hmd1 : mdGet md "transfer-id" = [tid]) (hmd2 : mdGet md "role" = [role]) :
    (proxyBroadcastRegistryAfter reg tid).lookup tid = none ∧
    transferFileLookup md (proxyBroadcastRegistryAfter reg tid) =
      Except.error (TFFailure.grpcError "transfer not initiated") ∧
    (∀ reg0 : Registry, proxyP2PRegistryAfter reg0 tid = reg0) := by
  refine ⟨lookup_filter_self reg tid, ?_, fun _ => rfl⟩
  simp [transferFileLookup, hmd1, hmd2, proxyBroadcastRegistryAfter,
    lookup_filter_self reg tid]

/-- C7 witness: the amended claim applied to broadcast transfer `t3` and a
well-formed receiver attachment attempt. -/
theorem conf_c7_witness :
    (mdGet mdT3 "transfer-id" = ["t3"] ∧ mdGet mdT3 "role" = ["receiver"]) ∧
    ((proxyBroadcastRegistryAfter regT3 "t3").lookup "t3" = none ∧
     transferFileLookup mdT3 (proxyBroadcastRegistryAfter regT3 "t3") =
       Except.error (TFFailure.grpcError "transfer not initiated") ∧
     (∀ reg0 : Registry, proxyP2PRegistryAfter reg0 "t3" = reg0)) :=
  ⟨⟨by rfl, by rfl⟩, conf_c7_amended regT3 "t3" mdT3 "receiver" (by rfl) (by rfl)⟩

/-- C8 counterexample: the file-request notification is broadcast with an
empty excluded address, so `carol` — neither source nor destination of
the request — and even the requester `alice` receive it, not only the
destination `bob`. -/
theorem conf_c8_counterexample :
    ((requestNotifyRoom roomABC reqT1).clients.lookup "c1").map Client.ch =
      some [fileRequestNotification reqT1] ∧
    ((requestNotifyRoom roomABC reqT1).clients.lookup "a1").map Client.ch =
      some [fileRequestNotification reqT1] :=
  ⟨rfl, rfl⟩

/-- C8 (amended): `RequestFileTransfer` injects one notification envelope
with reserved sender `Sistema-FileTransfer` and the exact sentinel
content, but broadcasts it to every room member whose queue has room —
the excluded sender address is the empty string, matching no member —
rather than delivering it to the destination participant only. -/
theorem conf_c8_amended (r : Room) (req : FileTransferRequest)
    (addr : String) (c : Client) (hmem : r.clients.lookup addr = some c)
    (hne : addr ≠ "") (hroom : c.ch.length < chanCap) :
    (fileRequestNotification req).sender = "Sistema-FileTransfer" ∧
    (fileRequestNotification req).payload = Payload.textMessage {
      sender := "", roomId := "", timestamp := 0,
      content := "FILE_REQUEST:" ++ req.transferId ++ ":" ++ req.sender ++
        ":" ++ req.filename ++ ":" ++ toString req.fileSize ++ ":" ++
        toString req.timestamp } ∧
    (requestNotifyRoom r req).clients.lookup addr =
      some { c with ch := c.ch ++ [fileRequestNotification req] } := by
  refine ⟨rfl, rfl, ?_⟩
  show (broadcastList r.clients (fileRequestNotification req) "").lookup addr = _
  rw [broadcastList_lookup, hmem]
  simp [hne, trySend, hroom]

/-- C8 witness: the amended claim applied to the three-member room with
the request from `alice` to `bob`, observed at the destination `bob`. -/
theorem conf_c8_witness :
    (roomABC.clients.lookup "b1" = some clientBob ∧ "b1" ≠ "" ∧
      clientBob.ch.length < chanCap) ∧
    ((fileRequestNotification reqT1).sender = "Sistema-FileTransfer" ∧
     (fileRequestNotification reqT1).payload = Payload.textMessage {
        sender := "", roomId := "", timestamp := 0,
        content := "FILE_REQUEST:" ++ reqT1.transferId ++ ":" ++ reqT1.sender ++
          ":" ++ reqT1.filename ++ ":" ++ toString reqT1.fileSize ++ ":" ++
          toString reqT1.timestamp } ∧
     (requestNotifyRoom roomABC reqT1).clients.lookup "b1" =
       some { clientBob with ch := clientBob.ch ++ [fileRequestNotification reqT1] }) :=
  ⟨⟨by rfl, by decide, by decide⟩,
    conf_c8_amended roomABC reqT1 "b1" clientBob (by rfl) (by decide) (by decide)⟩

/-- C9: the code contradicts the claim — `TransferFile` reads
`md.Get("transfer-id")[0]` and `md.Get("role")[0]` without checking, so a
call whose metadata lacks either key panics with an index-out-of-range
(crashing the handler) instead of returning `InvalidArgument`, and a role
value outside sender/receiver matches neither attachment branch, so the
call silently attaches nothing rather than failing. -/
theorem conf_c9_theorem :
    transferFileLookup [] regT2 =
      Except.error (TFFailure.goPanic "index out of range") ∧
    transferFileLookup [("transfer-id", "t2")] regT2 =
      Except.error (TFFailure.goPanic "index out of range") ∧
    p2pAttach { sender := none, receiver := none } "uploader" 7 =
      { sender := none, receiver := none } :=
  ⟨rfl, rfl, rfl⟩

/-- C10: a second sender attachment on a broadcast transfer fails with the
"already exists" error while the registry — hence the first sender
attachment and the attached receiver set — is returned unchanged. -/
theorem conf_c10_theorem (reg : Registry) (tid : String)
    (t : BroadcastTransfer) (s stream2 : Nat)
    (hreg : reg.lookup tid = some (Transfer.broadcast t))
    (hs : t.sender = some s) :
    registrySenderAttach reg tid stream2 =
      (reg, some ("broadcast sender for \x27" ++ tid ++ "\x27 already exists")) := by
  simp [registrySenderAttach, hreg, broadcastSenderAttach, hs]

/-- C10 witness: the theorem applied to broadcast transfer `t3`, whose
sender is already attached, with a second sender stream `9`. -/
theorem conf_c10_witness :
    (regT3.lookup "t3" =
        some (Transfer.broadcast { sender := some 1, receivers := [("b1", 2)] }) ∧
      ({ sender := some 1, receivers := [("b1", 2)] } : BroadcastTransfer).sender =
        some 1) ∧
    registrySenderAttach regT3 "t3" 9 =
      (regT3, some ("broadcast sender for \x27" ++ "t3" ++ "\x27 already exists")) :=
  ⟨⟨by rfl, by rfl⟩,
    conf_c10_theorem regT3 "t3" { sender := some 1, receivers := [("b1", 2)] } 1 9
      (by rfl) (by rfl)⟩

end Conf
